import Mathlib

/-
Verification development for the mindl repository (Go).

Modelling conventions:
  - Go strings are modelled as lists of natural numbers.  Where the code
    iterates with a range loop (runes), the list holds Unicode code points
    and the loop index is the cumulative UTF-8 byte offset, as in Go.
    Where the code indexes bytes, the list holds bytes.
  - 32-bit unsigned arithmetic is modelled on Nat with explicit reduction
    modulo 2 ^ 32.  Signed Go int arithmetic is modelled on Int, with
    Go division and remainder (truncation toward zero) as Int.tdiv and
    Int.tmod; where an operation's result can leave the 64-bit range it
    is wrapped with wrap64, and values the code obtains from strconv.Atoi
    while discarding the error are clamped as Atoi clamps them (atoi64).
  - Code that can panic (out-of-range indexing, division by zero) is
    modelled with Option or with an explicit panicked constructor: the
    none / panicked value marks the Go runtime panic.
-/

/-- Number of bytes of the UTF-8 encoding of a code point; a Go range loop
over a string advances its index by this amount. -/
def runeLen (r : Nat) : Nat :=
  if r < 0x80 then 1 else if r < 0x800 then 2 else if r < 0x10000 then 3 else 4

/-! ### Key-table cipher (src/plugins/binb/scrambling.go, Api.decryptData) -/

/-- The seeding fold inside makeKey: res += uint32(char) << uint(i%16),
accumulated in a uint32, where i is the byte offset of the rune. -/
def seedFold : List Nat → Nat → Nat → Nat
  | [], _, acc => acc
  | c :: cs, i, acc => seedFold cs (i + runeLen c) ((acc + c * 2 ^ (i % 16)) % 2 ^ 32)

/-- makeKey from decryptData: fold cid ++ ":" ++ k, mask with 0x7FFFFFFF
(the accumulator is below 2 ^ 32, so the mask is reduction modulo 2 ^ 31),
and substitute 0x12345678 for zero. The colon is code point 0x3A. -/
def makeKey (cid k : List Nat) : Nat :=
  let r := seedFold (cid ++ 0x3A :: k) 0 0 % 2 ^ 31
  if r = 0 then 0x12345678 else r

/-- One keystream step: key = (key >> 1) ^ (-(key & 1) & 0x48200004) on
uint32. The two's-complement negation -(key & 1) is all ones when key is
odd and zero when key is even, so the mask keeps 0x48200004 exactly for
odd keys. -/
def advanceKey (key : Nat) : Nat :=
  key / 2 ^^^ (if key % 2 = 1 then 0x48200004 else 0)

/-- One output byte: byte(((uint32(char) - 0x20 + key) % 0x5E) + 0x20).
uint32 subtraction of 0x20 is addition of 2 ^ 32 - 0x20 modulo 2 ^ 32; the
final value is below 0x7E, so the byte conversion is the identity. -/
def cipherByte (c key : Nat) : Nat :=
  (c % 2 ^ 32 + (2 ^ 32 - 0x20) + key) % 2 ^ 32 % 0x5E + 0x20

/-- The loop of decryptData: advance the key once per input rune, then
emit one combined byte. -/
def decryptLoop : Nat → List Nat → List Nat
  | _, [] => []
  | key, c :: cs => cipherByte c (advanceKey key) :: decryptLoop (advanceKey key) cs

/-- decryptData from src/plugins/binb/scrambling.go: seed from
cid ++ ":" ++ k, then run the keystream over the input runes. -/
def decryptData (cid k data : List Nat) : List Nat :=
  decryptLoop (makeKey cid k) data

/-- The keystream state after advancing n times from the seed. -/
def keyIter (seed : Nat) : Nat → Nat
  | 0 => seed
  | n + 1 => advanceKey (keyIter seed n)

theorem decryptLoop_length (cs : List Nat) : ∀ key, (decryptLoop key cs).length = cs.length := by
  induction cs with
  | nil => intro key; rfl
  | cons c cs ih => intro key; simpa [decryptLoop] using ih (advanceKey key)

theorem cipherByte_range (c key : Nat) : 0x20 ≤ cipherByte c key ∧ cipherByte c key < 0x7E := by
  unfold cipherByte
  have h : (c % 2 ^ 32 + (2 ^ 32 - 0x20) + key) % 2 ^ 32 % 0x5E < 0x5E :=
    Nat.mod_lt _ (by norm_num)
  omega

theorem decryptLoop_mem_range (cs : List Nat) :
    ∀ key, ∀ b ∈ decryptLoop key cs, 0x20 ≤ b ∧ b < 0x7E := by
  induction cs with
  | nil => intro key b hb; simp [decryptLoop] at hb
  | cons c cs ih =>
    intro key b hb
    rcases (by simpa [decryptLoop] using hb :
        b = cipherByte c (advanceKey key) ∨ b ∈ decryptLoop (advanceKey key) cs) with h | h
    · subst h; exact cipherByte_range _ _
    · exact ih _ b h

theorem keyIter_succ_left (s : Nat) : ∀ n, keyIter (advanceKey s) n = keyIter s (n + 1) := by
  intro n
  induction n with
  | zero => rfl
  | succ n ih => simp [keyIter, ih]

theorem decryptLoop_getD (cs : List Nat) :
    ∀ key i, i < cs.length →
      (decryptLoop key cs).getD i 0 = cipherByte (cs.getD i 0) (keyIter key (i + 1)) := by
  induction cs with
  | nil => intro key i hi; simp at hi
  | cons c cs ih =>
    intro key i hi
    cases i with
    | zero => simp [decryptLoop, keyIter]
    | succ i =>
      have hi2 : i < cs.length := by simpa using hi
      calc (decryptLoop key (c :: cs)).getD (i + 1) 0
          = (decryptLoop (advanceKey key) cs).getD i 0 := by simp [decryptLoop]
        _ = cipherByte (cs.getD i 0) (keyIter (advanceKey key) (i + 1)) := ih _ i hi2
        _ = cipherByte ((c :: cs).getD (i + 1) 0) (keyIter key (i + 2)) := by
              rw [keyIter_succ_left]; simp

theorem advanceKey_lt (key : Nat) (h : key < 2 ^ 32) : advanceKey key < 2 ^ 31 := by
  unfold advanceKey
  have h1 : key / 2 < 2 ^ 31 := by omega
  have h2 : (if key % 2 = 1 then 0x48200004 else 0) < 2 ^ 31 := by
    split <;> norm_num
  exact Nat.xor_lt_two_pow h1 h2

theorem makeKey_lt (cid k : List Nat) : makeKey cid k < 2 ^ 31 := by
  unfold makeKey
  dsimp only
  split
  · norm_num
  · exact Nat.mod_lt _ (by norm_num)

theorem keyIter_lt (seed : Nat) (hs : seed < 2 ^ 31) : ∀ n, keyIter seed n < 2 ^ 31 := by
  intro n
  induction n with
  | zero => exact hs
  | succ n ih => exact advanceKey_lt _ (lt_trans ih (by norm_num))

theorem cipherByte_printable (c key : Nat) (hc : 0x20 ≤ c) (hc2 : c < 2 ^ 31)
    (hk : key < 2 ^ 31) :
    cipherByte c key = (c - 0x20 + key) % 0x5E + 0x20 := by
  unfold cipherByte
  have e1 : c % 2 ^ 32 = c := Nat.mod_eq_of_lt (by omega)
  rw [e1]
  have e2 : c + (2 ^ 32 - 0x20) + key = 2 ^ 32 + (c - 0x20 + key) := by omega
  rw [e2, Nat.add_mod_left]
  have e3 : (c - 0x20 + key) % 2 ^ 32 = c - 0x20 + key := Nat.mod_eq_of_lt (by omega)
  rw [e3]

/-- C1: for every cid, nonce k and input (as a list of code points), the
key-table decryption returns one byte per input character, every output
byte lies in the printable range [0x20, 0x7E), and whenever the input
character is a printable code point the output byte equals
((in - 0x20 + state) mod 0x5E) + 0x20, where the state is seeded by
makeKey over cid ++ ":" ++ k and advanced once per character by
advanceKey (the two's-complement 32-bit xorshift step). -/
theorem decryptData_spec (cid k data : List Nat) :
    (decryptData cid k data).length = data.length ∧
    (∀ b ∈ decryptData cid k data, 0x20 ≤ b ∧ b < 0x7E) ∧
    (∀ i, i < data.length → 0x20 ≤ data.getD i 0 → data.getD i 0 < 2 ^ 31 →
      (decryptData cid k data).getD i 0 =
        (data.getD i 0 - 0x20 + keyIter (makeKey cid k) (i + 1)) % 0x5E + 0x20) := by
  refine ⟨decryptLoop_length data _, decryptLoop_mem_range data _, ?_⟩
  intro i hi h1 h2
  rw [decryptData, decryptLoop_getD data _ i hi]
  exact cipherByte_printable _ _ h1 h2 (keyIter_lt _ (makeKey_lt cid k) _)

/-- Concrete instance of the C1 theorem: cid "0000_1", k of 32 copies of
the letter A, input of three 0x21 bytes. -/
theorem decryptData_spec_witness :
    (decryptData [48, 48, 48, 48, 95, 49] (List.replicate 32 65) [33, 33, 33]).getD 0 0 =
      (33 - 0x20 + keyIter (makeKey [48, 48, 48, 48, 95, 49] (List.replicate 32 65)) 1)
        % 0x5E + 0x20 :=
  (decryptData_spec [48, 48, 48, 48, 95, 49] (List.replicate 32 65) [33, 33, 33]).2.2
    0 (by decide) (by decide) (by decide)

/-! ### BinB scramble-key parsing (src/plugins/binb/scrambling.go) -/

/-- Byte strings of Go, for code that indexes bytes. -/
abbrev GoStr := List Nat

def isDigit (c : Nat) : Bool := 0x30 ≤ c && c ≤ 0x39

def isAlpha (c : Nat) : Bool := (0x41 ≤ c && c ≤ 0x5A) || (0x61 ≤ c && c ≤ 0x7A)

/-- Character class of the type-1 payload group: [-_0-9A-Za-z]. -/
def isType1PayloadChar (c : Nat) : Bool :=
  c = 0x2D || c = 0x5F || isDigit c || isAlpha c

/-- Capture groups of reType1Key, the anchored regular expression
matching an equals sign, digits, a dash, digits, a dash-or-plus sign,
digits, a dash, and a payload over [-_0-9A-Za-z]. Each digit group is
followed by a character outside its class, so the match is the unique
decomposition computed here with maximal digit runs. -/
structure Type1Match where
  hDigits : GoStr
  vDigits : GoStr
  sign : Nat
  padDigits : GoStr
  payload : GoStr
  deriving DecidableEq

def type1Match (s : GoStr) : Option Type1Match :=
  match s with
  | 0x3D :: rest =>
    let d1 := rest.takeWhile isDigit
    let r1 := rest.dropWhile isDigit
    if d1.isEmpty then none else
    match r1 with
    | 0x2D :: r2 =>
      let d2 := r2.takeWhile isDigit
      let r3 := r2.dropWhile isDigit
      if d2.isEmpty then none else
      match r3 with
      | sign :: r4 =>
        if sign = 0x2B ∨ sign = 0x2D then
          let d3 := r4.takeWhile isDigit
          let r5 := r4.dropWhile isDigit
          if d3.isEmpty then none else
          match r5 with
          | 0x2D :: payload =>
            if payload ≠ [] ∧ payload.all isType1PayloadChar then
              some ⟨d1, d2, sign, d3, payload⟩
            else none
          | _ => none
        else none
      | _ => none
    | _ => none
  | _ => none

/-- Capture groups of reType2Key: digits, dash, digits, dash, letters.
The digit groups are non-greedy in the source pattern, but since a digit
group must be followed by a dash the match is again the unique maximal-run
decomposition. -/
structure Type2Match where
  ndxDigits : GoStr
  ndyDigits : GoStr
  payload : GoStr
  deriving DecidableEq

def type2Match (s : GoStr) : Option Type2Match :=
  let d1 := s.takeWhile isDigit
  let r1 := s.dropWhile isDigit
  if d1.isEmpty then none else
  match r1 with
  | 0x2D :: r2 =>
    let d2 := r2.takeWhile isDigit
    let r3 := r2.dropWhile isDigit
    if d2.isEmpty then none else
    match r3 with
    | 0x2D :: payload =>
      if payload ≠ [] ∧ payload.all isAlpha then some ⟨d1, d2, payload⟩ else none
    | _ => none
  | _ => none

/-- Exact decimal value of a digit group. -/
def natOfDigits (ds : GoStr) : Nat := ds.foldl (fun acc d => acc * 10 + (d - 0x30)) 0

/-- Wrap-around of Go's 64-bit int arithmetic: the unique value congruent
modulo 2 ^ 64 that lies in [-2 ^ 63, 2 ^ 63). Every Go arithmetic
operation whose result can leave that range wraps this way; wrap64 is
the identity on values already in range. -/
def wrap64 (a : Int) : Int := (a + 2 ^ 63) % 2 ^ 64 - 2 ^ 63

/-- Value of a digit group as the code observes it: strconv.Atoi returns
the maximum int64 together with ErrRange when the exact value is out of
range, and the code discards the error, so the parsed field is the exact
value clamped to 2 ^ 63 - 1. -/
def atoi64 (ds : GoStr) : Nat := min (natOfDigits ds) (2 ^ 63 - 1)

/-- Parsed type-1 pair data (scrambleDataType1): h, v and padding come
from the C-side key; src is the C payload and dst the P payload. -/
structure Type1Data where
  h : Nat
  v : Nat
  padding : Nat
  src : GoStr
  dst : GoStr
  deriving DecidableEq

/-- Piece of a type-2 key (scrambleDataType2Piece). Positions come from
the case-aware alphabet decode and can in principle be negative. -/
structure Type2Piece where
  posX : Int
  posY : Int
  width : Int
  height : Int
  deriving DecidableEq

/-- Parsed type-2 key data (scrambleDataType2). -/
structure Type2Data where
  ndx : Nat
  ndy : Nat
  pieces : List Type2Piece
  deriving DecidableEq

inductive KeyKind where
  | t1
  | t2
  deriving DecidableEq

/-- Entry of the per-pair data table: either one parsed type-1 pair or a
pair of parsed type-2 keys (scrambleDataType2Pair). -/
inductive ScrambleData where
  | t1 (d : Type1Data)
  | t2pair (c p : Type2Data)
  deriving DecidableEq

/-- decodeType2Key: look the character up in the uppercase alphabet
(giving 1 + index * 2) or the lowercase alphabet (giving index * 2);
when both lookups miss, the Go expression yields (-1) * 2. -/
def decodeType2Key (c : Nat) : Int :=
  if 0x41 ≤ c ∧ c ≤ 0x5A then 1 + ((c : Int) - 0x41) * 2
  else if 0x61 ≤ c ∧ c ≤ 0x7A then ((c : Int) - 0x61) * 2
  else -2

/-- The piece array built by processType2 after the length check: piece i
takes its half-cell position from payload bytes 2i and 2i+1 and its size
from the thresholds f, g, h, j, whose computation wraps as Go int
arithmetic does. count is the length of the slice the code allocates. -/
def type2Pieces (data : GoStr) (ndx ndy count : Nat) : List Type2Piece :=
  let f : Int := wrap64 (wrap64 (((ndx : Int) - 1) * ((ndy : Int) - 1)) - 1)
  let g : Int := wrap64 (f + ((ndx : Int) - 1))
  let h : Int := wrap64 (g + ((ndy : Int) - 1))
  let j : Int := wrap64 (h + 1)
  (List.range count).map fun i =>
    { posX := decodeType2Key (data.getD (i * 2) 0)
      posY := decodeType2Key (data.getD (i * 2 + 1) 0)
      width := if (i : Int) ≤ f then 2 else if (i : Int) ≤ g then 2
               else if (i : Int) ≤ h then 1 else if (i : Int) ≤ j then 1 else 0
      height := if (i : Int) ≤ f then 2 else if (i : Int) ≤ g then 1
                else if (i : Int) ≤ h then 2 else if (i : Int) ≤ j then 1 else 0 }

/-- Outcome of processType2: parsed data, an error return, or a runtime
panic. -/
inductive Type2Result where
  | ok (d : Type2Data)
  | err
  | panicked
  deriving DecidableEq

/-- processType2: match the key against reType2Key, check the payload
length against ndx * ndy * 2 computed in wrapping int arithmetic as the
source does, then allocate the piece slice of length ndx * ndy (again
the wrapped product): a negative wrapped product passes the length check
for suitable payloads but makes the make call panic. When the wrapped
product is nonnegative and the check passed, the payload has exactly
twice that many bytes, and the pieces are built from it. -/
def processType2 (key : GoStr) : Type2Result :=
  match type2Match key with
  | none => Type2Result.err
  | some m =>
    let ndx := atoi64 m.ndxDigits
    let ndy := atoi64 m.ndyDigits
    let count := wrap64 ((ndx : Int) * (ndy : Int))
    if (m.payload.length : Int) ≠ wrap64 (count * 2) then Type2Result.err
    else if count < 0 then Type2Result.panicked
    else Type2Result.ok { ndx := ndx, ndy := ndy,
                          pieces := type2Pieces m.payload ndx ndy count.toNat }

/-- processType1: match both keys against reType1Key, require equal h, v
and padding groups, a plus sign on the C key and a minus sign on the P
key, and check the bounds on h and v and the payload lengths. -/
def processType1 (ck pk : GoStr) : Option Type1Data :=
  match type1Match ck, type1Match pk with
  | some c, some p =>
    if c.hDigits = p.hDigits ∧ c.vDigits = p.vDigits ∧ c.padDigits = p.padDigits ∧
        c.sign = 0x2B ∧ p.sign = 0x2D then
      let h := atoi64 c.hDigits
      let v := atoi64 c.vDigits
      let padding := atoi64 c.padDigits
      if h > 8 ∨ v > 8 ∨ h * v > 64 then none
      else if c.payload.length ≠ h + v + h * v ∨ p.payload.length ≠ h + v + h * v then none
      else some { h := h, v := v, padding := padding, src := c.payload, dst := p.payload }
    else none
  | _, _ => none

/-- The key-kind dispatch at the top of the init loop. The outer none
marks a panic: Go indexes byte 0 of a table entry, so an empty entry that
is inspected panics. The inner none is the unknown-key-type case. The
short-circuit order follows the source: the P entry is inspected only
when the C entry starts with an equals sign or a digit. -/
def classifyPair (c p : GoStr) : Option (Option KeyKind) :=
  match c.head? with
  | none => none
  | some cb =>
    if cb = 0x3D then
      match p.head? with
      | none => none
      | some pb => if pb = 0x3D then some (some KeyKind.t1) else some none
    else if isDigit cb then
      match p.head? with
      | none => none
      | some pb => if isDigit pb then some (some KeyKind.t2) else some none
    else some none

/-- Kind of a pair when no panic occurs: flattening of classifyPair. -/
def pairKindN (c p : GoStr) : Option KeyKind :=
  match classifyPair c p with
  | some o => o
  | none => none

/-- Outcome of parsing one pair: a data entry, an error, or a panic
inside processType2. -/
inductive ParseResult where
  | ok (d : ScrambleData)
  | err
  | panicked
  deriving DecidableEq

/-- Per-kind parse of one pair, as the init loop performs it. For type 2
the C key is processed first and the P key only when the C key parsed,
as in the source; a panic in either propagates. Type-1 parsing cannot
panic. -/
def parsePair (c p : GoStr) : KeyKind → ParseResult
  | KeyKind.t1 =>
    match processType1 c p with
    | some d => ParseResult.ok (ScrambleData.t1 d)
    | none => ParseResult.err
  | KeyKind.t2 =>
    match processType2 c with
    | Type2Result.panicked => ParseResult.panicked
    | Type2Result.err => ParseResult.err
    | Type2Result.ok cd =>
      match processType2 p with
      | Type2Result.panicked => ParseResult.panicked
      | Type2Result.err => ParseResult.err
      | Type2Result.ok pd => ParseResult.ok (ScrambleData.t2pair cd pd)

/-- Result of NewDescrambler: a successful build (with the key type and
the data table), an error return, or a runtime panic. -/
inductive InitResult where
  | ok (keyType : Option KeyKind) (data : List ScrambleData)
  | err
  | panicked
  deriving DecidableEq

/-- The loop of Descrambler.init over the zipped key tables. For each
pair: classify (indexing an empty entry panics); an unknown kind is an
error return; then the pair is parsed with its own kind, so a panic
during parsing propagates before the later checks run; the mixed-tables
check and the parse-error check both return an error (the source
distinguishes their messages but both are plain error returns, with the
mixed check performed first). -/
def initLoop : List (GoStr × GoStr) → Option KeyKind → List ScrambleData → InitResult
  | [], kt, acc => InitResult.ok kt acc
  | (c, p) :: rest, kt, acc =>
    match classifyPair c p with
    | none => InitResult.panicked
    | some none => InitResult.err
    | some (some newType) =>
      match parsePair c p newType with
      | ParseResult.panicked => InitResult.panicked
      | ParseResult.err => InitResult.err
      | ParseResult.ok d =>
        match kt with
        | some k =>
          if k = newType then initLoop rest (some k) (acc ++ [d])
          else InitResult.err
        | none => initLoop rest (some newType) (acc ++ [d])

/-- NewDescrambler from src/plugins/binb/scrambling.go: reject tables of
different or zero length, then run the init loop. -/
def NewDescrambler (ctbl ptbl : List GoStr) : InitResult :=
  if ctbl.length ≠ ptbl.length then InitResult.err
  else if ctbl.length = 0 then InitResult.err
  else initLoop (ctbl.zip ptbl) none []

/-! ### C2: error conditions of NewDescrambler -/

/-- Badness of one pair relative to an already established key kind: its
kind is not that kind (unknown or mixed), or it fails to parse with an
error return. -/
def badFor (k : KeyKind) (pr : GoStr × GoStr) : Prop :=
  pairKindN pr.1 pr.2 ≠ some k ∨ parsePair pr.1 pr.2 k = ParseResult.err

/-- A pair none of whose per-kind parses panics. Parsing panics only for
type-2 keys whose wrapped piece count is negative while the wrapped
length check passes. -/
def noParsePanic (pr : GoStr × GoStr) : Prop :=
  parsePair pr.1 pr.2 KeyKind.t1 ≠ ParseResult.panicked ∧
  parsePair pr.1 pr.2 KeyKind.t2 ≠ ParseResult.panicked

instance (pr : GoStr × GoStr) : Decidable (noParsePanic pr) := by
  unfold noParsePanic; infer_instance

theorem noParsePanic_forall (pr : GoStr × GoStr) (h : noParsePanic pr) :
    ∀ k, parsePair pr.1 pr.2 k ≠ ParseResult.panicked := by
  intro k
  cases k with
  | t1 => exact h.1
  | t2 => exact h.2

instance (k : KeyKind) (pr : GoStr × GoStr) : Decidable (badFor k pr) := by
  unfold badFor; infer_instance

theorem classifyPair_eq_of_ne (c p : GoStr) (hc : c ≠ []) (hp : p ≠ []) :
    classifyPair c p = some (pairKindN c p) := by
  unfold pairKindN
  cases hcp : classifyPair c p with
  | some o => rfl
  | none =>
    exfalso
    cases c with
    | nil => exact hc rfl
    | cons cb cs =>
      cases p with
      | nil => exact hp rfl
      | cons pb ps =>
        unfold classifyPair at hcp
        simp only [List.head?] at hcp
        split at hcp
        · split at hcp <;> simp_all
        · split at hcp
          · split at hcp <;> simp_all
          · simp_all

theorem initLoop_some_err_iff :
    ∀ (l : List (GoStr × GoStr)) (k : KeyKind) (acc : List ScrambleData),
      (∀ pr ∈ l, pr.1 ≠ [] ∧ pr.2 ≠ []) → (∀ pr ∈ l, noParsePanic pr) →
      (initLoop l (some k) acc = InitResult.err ↔ ∃ pr ∈ l, badFor k pr) := by
  intro l
  induction l with
  | nil => intro k acc _ _; simp [initLoop]
  | cons pr rest ih =>
    intro k acc hne hnp
    obtain ⟨c, p⟩ := pr
    obtain ⟨hc, hp⟩ := hne (c, p) (by simp)
    have hrest : ∀ pr ∈ rest, pr.1 ≠ [] ∧ pr.2 ≠ [] := fun pr h => hne pr (by simp [h])
    have hnrest : ∀ pr ∈ rest, noParsePanic pr := fun pr h => hnp pr (by simp [h])
    have hcl := classifyPair_eq_of_ne c p hc hp
    cases ho : pairKindN c p with
    | none =>
      rw [ho] at hcl
      have hval : initLoop ((c, p) :: rest) (some k) acc = InitResult.err := by
        simp [initLoop, hcl]
      refine iff_of_true hval ⟨(c, p), by simp, Or.inl ?_⟩
      rw [ho]; exact fun he => Option.noConfusion he
    | some k2 =>
      rw [ho] at hcl
      cases hparse : parsePair c p k2 with
      | panicked => exact absurd hparse (noParsePanic_forall (c, p) (hnp (c, p) (by simp)) k2)
      | err =>
        have hval : initLoop ((c, p) :: rest) (some k) acc = InitResult.err := by
          simp [initLoop, hcl, hparse]
        refine iff_of_true hval ⟨(c, p), by simp, ?_⟩
        by_cases hk : k = k2
        · subst hk; exact Or.inr hparse
        · refine Or.inl ?_
          rw [ho]; exact fun he => hk (Option.some.inj he).symm
      | ok d =>
        by_cases hk : k = k2
        · subst hk
          have hval : initLoop ((c, p) :: rest) (some k) acc =
              initLoop rest (some k) (acc ++ [d]) := by
            simp [initLoop, hcl, hparse]
          rw [hval, ih k (acc ++ [d]) hrest hnrest]
          constructor
          · intro ⟨pr2, hm, hb⟩; exact ⟨pr2, by simp [hm], hb⟩
          · intro ⟨pr2, hm, hb⟩
            rcases (by simpa using hm : pr2 = (c, p) ∨ pr2 ∈ rest) with h | h
            · subst h
              rcases hb with hb | hb
              · exact absurd ho hb
              · rw [hparse] at hb; exact absurd hb (by simp)
            · exact ⟨pr2, h, hb⟩
        · have hval : initLoop ((c, p) :: rest) (some k) acc = InitResult.err := by
            simp [initLoop, hcl, hparse, hk]
          refine iff_of_true hval ⟨(c, p), by simp, Or.inl ?_⟩
          rw [ho]; exact fun he => hk (Option.some.inj he).symm

theorem initLoop_ne_panicked :
    ∀ (l : List (GoStr × GoStr)) (kt : Option KeyKind) (acc : List ScrambleData),
      (∀ pr ∈ l, pr.1 ≠ [] ∧ pr.2 ≠ []) → (∀ pr ∈ l, noParsePanic pr) →
      initLoop l kt acc ≠ InitResult.panicked := by
  intro l
  induction l with
  | nil => intro kt acc _ _; simp [initLoop]
  | cons pr rest ih =>
    intro kt acc hne hnp
    obtain ⟨c, p⟩ := pr
    obtain ⟨hc, hp⟩ := hne (c, p) (by simp)
    have hrest : ∀ pr ∈ rest, pr.1 ≠ [] ∧ pr.2 ≠ [] := fun pr h => hne pr (by simp [h])
    have hnrest : ∀ pr ∈ rest, noParsePanic pr := fun pr h => hnp pr (by simp [h])
    have hcl := classifyPair_eq_of_ne c p hc hp
    cases ho : pairKindN c p with
    | none =>
      rw [ho] at hcl
      simp [initLoop, hcl]
    | some k2 =>
      rw [ho] at hcl
      cases hparse : parsePair c p k2 with
      | panicked => exact absurd hparse (noParsePanic_forall (c, p) (hnp (c, p) (by simp)) k2)
      | err => simp [initLoop, hcl, hparse]
      | ok d =>
        cases kt with
        | some k =>
          by_cases hk : k = k2
          · subst hk
            have hval : initLoop ((c, p) :: rest) (some k) acc =
                initLoop rest (some k) (acc ++ [d]) := by
              simp [initLoop, hcl, hparse]
            rw [hval]; exact ih (some k) (acc ++ [d]) hrest hnrest
          · simp [initLoop, hcl, hparse, hk]
        | none =>
          have hval : initLoop ((c, p) :: rest) none acc =
              initLoop rest (some k2) (acc ++ [d]) := by
            simp [initLoop, hcl, hparse]
          rw [hval]; exact ih (some k2) (acc ++ [d]) hrest hnrest

theorem initLoop_none_err_iff (c p : GoStr) (rest : List (GoStr × GoStr))
    (acc : List ScrambleData) (hc : c ≠ []) (hp : p ≠ [])
    (hcnp : noParsePanic (c, p))
    (hrest : ∀ pr ∈ rest, pr.1 ≠ [] ∧ pr.2 ≠ [])
    (hnrest : ∀ pr ∈ rest, noParsePanic pr) :
    (initLoop ((c, p) :: rest) none acc = InitResult.err ↔
      pairKindN c p = none ∨
      ∃ k, pairKindN c p = some k ∧
        (parsePair c p k = ParseResult.err ∨ ∃ pr ∈ rest, badFor k pr)) := by
  have hcl := classifyPair_eq_of_ne c p hc hp
  cases ho : pairKindN c p with
  | none =>
    rw [ho] at hcl
    have hval : initLoop ((c, p) :: rest) none acc = InitResult.err := by
      simp [initLoop, hcl]
    exact iff_of_true hval (Or.inl rfl)
  | some k =>
    rw [ho] at hcl
    cases hparse : parsePair c p k with
    | panicked => exact absurd hparse (noParsePanic_forall (c, p) hcnp k)
    | err =>
      have hval : initLoop ((c, p) :: rest) none acc = InitResult.err := by
        simp [initLoop, hcl, hparse]
      exact iff_of_true hval (Or.inr ⟨k, rfl, Or.inl hparse⟩)
    | ok d =>
      have hval : initLoop ((c, p) :: rest) none acc =
          initLoop rest (some k) (acc ++ [d]) := by
        simp [initLoop, hcl, hparse]
      rw [hval, initLoop_some_err_iff rest k (acc ++ [d]) hrest hnrest]
      constructor
      · intro h; exact Or.inr ⟨k, rfl, Or.inr h⟩
      · intro h
        rcases h with h | ⟨k2, hk2, h⟩
        · exact absurd h (by simp)
        · have : k2 = k := Option.some.inj (hk2 ▸ rfl)
          subst this
          rcases h with h | h
          · rw [hparse] at h; exact absurd h (by simp)
          · exact h

/-- Error condition of the C2 claim, formalised from the claim's words
against the structural checks the code performs: the tables differ in
length or are empty; some pair is of unrecognised kind; key kinds are
mixed across entries; or some pair fails its per-kind structural parse
with an error return (type 1: matching h, v, padding groups, plus and
minus signs, bounds on h and v, payload length h + v + h * v; type 2:
payload length equal to 2 * ndx * ndy as the code computes it, in
wrapping int arithmetic on the Atoi-clamped fields). -/
def specErrorCondition (ctbl ptbl : List GoStr) : Prop :=
  ctbl.length ≠ ptbl.length ∨ ctbl = [] ∨ ptbl = [] ∨
  (∃ pr ∈ ctbl.zip ptbl, pairKindN pr.1 pr.2 = none) ∨
  (∃ pr ∈ ctbl.zip ptbl, ∃ pr2 ∈ ctbl.zip ptbl,
    pairKindN pr.1 pr.2 ≠ pairKindN pr2.1 pr2.2) ∨
  (∃ pr ∈ ctbl.zip ptbl, ∃ k, pairKindN pr.1 pr.2 = some k ∧
    parsePair pr.1 pr.2 k = ParseResult.err)

instance (ctbl ptbl : List GoStr) : Decidable (specErrorCondition ctbl ptbl) := by
  unfold specErrorCondition; infer_instance

/-- C2 (amended): for key tables whose entries are all nonempty strings
and none of whose entries makes the type-2 parser panic (a key whose
wrapped piece count ndx * ndy is negative while the wrapped payload
length check passes panics in make), NewDescrambler returns an error
exactly when the tables differ in length or are empty, some pair is of
unrecognised kind, key kinds are mixed across entries, or some pair
fails its per-kind structural checks. -/
theorem NewDescrambler_err_iff (ctbl ptbl : List GoStr)
    (hc : ∀ s ∈ ctbl, s ≠ []) (hp : ∀ s ∈ ptbl, s ≠ [])
    (hnp : ∀ pr ∈ ctbl.zip ptbl, noParsePanic pr) :
    NewDescrambler ctbl ptbl = InitResult.err ↔ specErrorCondition ctbl ptbl := by
  by_cases hlen : ctbl.length = ptbl.length
  · by_cases h0 : ctbl.length = 0
    · have hce : ctbl = [] := List.length_eq_zero.mp h0
      have hpe : ptbl = [] := List.length_eq_zero.mp (hlen ▸ h0)
      subst hce; subst hpe
      exact iff_of_true (by decide) (Or.inr (Or.inl rfl))
    · obtain ⟨c0, cs, rfl⟩ : ∃ c0 cs, ctbl = c0 :: cs := by
        cases ctbl with
        | nil => exact absurd rfl h0
        | cons a l => exact ⟨a, l, rfl⟩
      obtain ⟨p0, ps, rfl⟩ : ∃ p0 ps, ptbl = p0 :: ps := by
        cases ptbl with
        | nil => simp at hlen
        | cons a l => exact ⟨a, l, rfl⟩
      have hzip : (c0 :: cs).zip (p0 :: ps) = (c0, p0) :: cs.zip ps := rfl
      have hrest : ∀ pr ∈ cs.zip ps, pr.1 ≠ [] ∧ pr.2 ≠ [] := by
        intro pr hm
        obtain ⟨a, b⟩ := pr
        obtain ⟨ha, hb⟩ := List.of_mem_zip hm
        exact ⟨hc a (by simp [ha]), hp b (by simp [hb])⟩
      have hnrest : ∀ pr ∈ cs.zip ps, noParsePanic pr := by
        intro pr hm
        exact hnp pr (by rw [hzip]; simp [hm])
      have hc0 : c0 ≠ [] := hc c0 (by simp)
      have hp0 : p0 ≠ [] := hp p0 (by simp)
      have hcp0 : noParsePanic (c0, p0) := hnp (c0, p0) (by rw [hzip]; simp)
      have hnd : NewDescrambler (c0 :: cs) (p0 :: ps) =
          initLoop ((c0, p0) :: cs.zip ps) none [] := by
        simp [NewDescrambler, hlen, h0, hzip]
      rw [hnd, initLoop_none_err_iff c0 p0 (cs.zip ps) [] hc0 hp0 hcp0 hrest hnrest]
      unfold specErrorCondition
      rw [hzip]
      constructor
      · intro h
        rcases h with h | ⟨k, hk0, h⟩
        · exact Or.inr (Or.inr (Or.inr (Or.inl ⟨(c0, p0), by simp, h⟩)))
        · rcases h with h | ⟨pr, hm, hbad⟩
          · exact Or.inr (Or.inr (Or.inr (Or.inr (Or.inr ⟨(c0, p0), by simp, k, hk0, h⟩))))
          · rcases hbad with hbad | hbad
            · cases hpk : pairKindN pr.1 pr.2 with
              | none =>
                exact Or.inr (Or.inr (Or.inr (Or.inl ⟨pr, by simp [hm], hpk⟩)))
              | some k2 =>
                refine Or.inr (Or.inr (Or.inr (Or.inr (Or.inl
                  ⟨pr, by simp [hm], (c0, p0), by simp, ?_⟩))))
                rw [hpk, hk0]
                intro he
                exact hbad (by rw [hpk, Option.some.inj he])
            · by_cases hpk : pairKindN pr.1 pr.2 = some k
              · exact Or.inr (Or.inr (Or.inr (Or.inr (Or.inr
                  ⟨pr, by simp [hm], k, hpk, hbad⟩))))
              · cases hpk2 : pairKindN pr.1 pr.2 with
                | none =>
                  exact Or.inr (Or.inr (Or.inr (Or.inl ⟨pr, by simp [hm], hpk2⟩)))
                | some k2 =>
                  refine Or.inr (Or.inr (Or.inr (Or.inr (Or.inl
                    ⟨pr, by simp [hm], (c0, p0), by simp, ?_⟩))))
                  rw [hpk2, hk0]
                  intro he
                  exact hpk (by rw [hpk2, Option.some.inj he])
      · intro h
        rcases h with h | h | h | h | h | h
        · exact absurd hlen (by simpa using h)
        · exact absurd h (by simp)
        · exact absurd h (by simp)
        · obtain ⟨pr, hm, hnone⟩ := h
          rcases (by simpa using hm : pr = (c0, p0) ∨ pr ∈ cs.zip ps) with he | he
          · subst he; exact Or.inl hnone
          · cases hk0 : pairKindN c0 p0 with
            | none => exact Or.inl rfl
            | some k =>
              refine Or.inr ⟨k, rfl, Or.inr ⟨pr, he, Or.inl ?_⟩⟩
              rw [hnone]; exact fun he2 => Option.noConfusion he2
        · obtain ⟨pr, hm, pr2, hm2, hne2⟩ := h
          cases hk0 : pairKindN c0 p0 with
          | none => exact Or.inl rfl
          | some k =>
            by_cases hpk : pairKindN pr.1 pr.2 = some k
            · have hpk2 : pairKindN pr2.1 pr2.2 ≠ some k := by
                rw [← hpk]; exact fun he => hne2 he.symm
              rcases (by simpa using hm2 : pr2 = (c0, p0) ∨ pr2 ∈ cs.zip ps) with he | he
              · subst he; exact absurd hk0 hpk2
              · exact Or.inr ⟨k, rfl, Or.inr ⟨pr2, he, Or.inl hpk2⟩⟩
            · rcases (by simpa using hm : pr = (c0, p0) ∨ pr ∈ cs.zip ps) with he | he
              · subst he; exact absurd hk0 hpk
              · exact Or.inr ⟨k, rfl, Or.inr ⟨pr, he, Or.inl hpk⟩⟩
        · obtain ⟨pr, hm, k2, hk2, hparse⟩ := h
          rcases (by simpa using hm : pr = (c0, p0) ∨ pr ∈ cs.zip ps) with he | he
          · subst he; exact Or.inr ⟨k2, hk2, Or.inl hparse⟩
          · cases hk0 : pairKindN c0 p0 with
            | none => exact Or.inl rfl
            | some k =>
              by_cases hkk : k2 = k
              · subst hkk
                exact Or.inr ⟨k2, rfl, Or.inr ⟨pr, he, Or.inr hparse⟩⟩
              · refine Or.inr ⟨k, rfl, Or.inr ⟨pr, he, Or.inl ?_⟩⟩
                rw [hk2]; exact fun he2 => hkk (Option.some.inj he2)
  · have hval : NewDescrambler ctbl ptbl = InitResult.err := by
      simp [NewDescrambler, hlen]
    exact iff_of_true hval (Or.inl hlen)

/-- Key tables for the C2 witness: a valid type-1 pair followed by a
valid type-2 pair, so the only failure is the mixed-kinds error. The
byte lists spell the keys =1-1+0-AAA, 1-1-Ab and =1-1-0-AAA, 1-1-Ab. -/
def c2MixedCtbl : List GoStr :=
  [[0x3D, 0x31, 0x2D, 0x31, 0x2B, 0x30, 0x2D, 0x41, 0x41, 0x41],
   [0x31, 0x2D, 0x31, 0x2D, 0x41, 0x62]]

def c2MixedPtbl : List GoStr :=
  [[0x3D, 0x31, 0x2D, 0x31, 0x2D, 0x30, 0x2D, 0x41, 0x41, 0x41],
   [0x31, 0x2D, 0x31, 0x2D, 0x41, 0x62]]

/-- The type-2 key 3-3074457345618258603-Ab: exact ndx * ndy * 2 is
2 * (2 ^ 63 + 1), far from the payload length 2, but the wrapped product
ndx * ndy is the negative value 1 - 2 ^ 63, whose doubling wraps to
exactly 2, so the code passes the length check and then panics in make
on the negative slice length. -/
def c2OverflowKey : GoStr :=
  [0x33, 0x2D,
   0x33, 0x30, 0x37, 0x34, 0x34, 0x35, 0x37, 0x33, 0x34, 0x35,
   0x36, 0x31, 0x38, 0x32, 0x35, 0x38, 0x36, 0x30, 0x33,
   0x2D, 0x41, 0x62]

/-- C2 counterexample: two inputs on which the claimed equivalence
fails. On the tables of one empty entry each, the entry is of
unrecognised kind, so the claim demands an error return, but the code
panics on the byte access Ctbl[i][0]. On the tables holding the single
key 3-3074457345618258603-Ab, the payload length 2 differs from the
exact 2 * ndx * ndy, so the claim again demands an error, but the
wrapped length check passes (the wrapped product times two is 2) and
the code panics in make on the negative piece count. -/
theorem NewDescrambler_err_iff_counterexample :
    (NewDescrambler [[]] [[]] = InitResult.panicked ∧
      specErrorCondition [[]] [[]] ∧
      ¬ (NewDescrambler [[]] [[]] = InitResult.err ↔ specErrorCondition [[]] [[]])) ∧
    (natOfDigits [0x33, 0x30, 0x37, 0x34, 0x34, 0x35, 0x37, 0x33, 0x34, 0x35,
        0x36, 0x31, 0x38, 0x32, 0x35, 0x38, 0x36, 0x30, 0x33] = 3074457345618258603 ∧
      (2 : Nat) ≠ 3 * 3074457345618258603 * 2 ∧
      wrap64 (wrap64 ((3 : Int) * 3074457345618258603) * 2) = 2 ∧
      processType2 c2OverflowKey = Type2Result.panicked ∧
      NewDescrambler [c2OverflowKey] [c2OverflowKey] = InitResult.panicked) := by
  refine ⟨⟨by decide, by decide, ?_⟩, by decide, by decide, by decide, by decide, by decide⟩
  intro h
  have := h.mpr (by decide)
  exact absurd this (by decide)

/-- Witness for the C2 theorem: mixed key kinds over nonempty,
non-panicking entries give an error return. -/
theorem NewDescrambler_err_iff_witness :
    NewDescrambler c2MixedCtbl c2MixedPtbl = InitResult.err :=
  (NewDescrambler_err_iff c2MixedCtbl c2MixedPtbl (by decide) (by decide)
    (by decide)).mpr (by decide)

/-! ### Type-1 rectangle derivation (src/plugins/binb/scrambling.go) -/

/-- One rectangle of a scrambled image (scrambleRectangle). -/
structure ScrambleRect where
  srcX : Int
  srcY : Int
  dstX : Int
  dstY : Int
  width : Int
  height : Int
  deriving DecidableEq

/-- All rectangles for a scrambled image together with the source and
destination dimensions (scrambleRectanglesCollection). -/
structure RectCollection where
  rectangles : List ScrambleRect
  srcWidth : Int
  srcHeight : Int
  dstWidth : Int
  dstHeight : Int
  deriving DecidableEq

/-- Outcome of a rectangle derivation: a collection, an error return, or
a runtime panic. -/
inductive RectResult where
  | ok (col : RectCollection)
  | err
  | panicked
  deriving DecidableEq

/-- The 128-entry lookup table tnpConstants. -/
def tnpConstants : List Int :=
  [-1, -1, -1, -1, -1, -1, -1, -1, -1, -1, -1, -1, -1, -1, -1, -1, -1, -1, -1,
   -1, -1, -1, -1, -1, -1, -1, -1, -1, -1, -1, -1, -1, -1, -1, -1, -1, -1, -1,
   -1, -1, -1, -1, -1, -1, -1, 62, -1, -1, 52, 53, 54, 55, 56, 57, 58, 59, 60,
   61, -1, -1, -1, -1, -1, -1, -1, 0, 1, 2, 3, 4, 5, 6, 7, 8, 9, 10, 11, 12,
   13, 14, 15, 16, 17, 18, 19, 20, 21, 22, 23, 24, 25, -1, -1, -1, -1, 63, -1,
   26, 27, 28, 29, 30, 31, 32, 33, 34, 35, 36, 37, 38, 39, 40, 41, 42, 43, 44,
   45, 46, 47, 48, 49, 50, 51, -1, -1, -1, -1, -1]

/-- Table lookup tnpConstants[b]. Payload bytes are in the matched
character class and hence below 128, so the default is never taken for
data produced by the parser. -/
def tnpAt (b : Nat) : Int := tnpConstants.getD b (-1)

/-- The tnp helper: slices t (h entries), n (v entries) and p (h times v
entries) of the payload, decoded through tnpConstants. Go indexes the
payload directly, so a payload shorter than h + v + h * v panics: that
case is none. -/
def tnp (data : GoStr) (h v : Nat) : Option (List Int × List Int × List Int) :=
  if h + v + h * v ≤ data.length then
    some ((List.range h).map (fun i => tnpAt (data.getD i 0)),
          (List.range v).map (fun i => tnpAt (data.getD (h + i) 0)),
          (List.range (h * v)).map (fun i => tnpAt (data.getD (h + v + i) 0)))
  else none

/-- Go indexing of a list of ints by an int: none is the out-of-range
panic. -/
def idxI (l : List Int) (i : Int) : Option Int :=
  if 0 ≤ i ∧ i < l.length then some (l.getD i.toNat 0) else none

/-- The working-dimension computation at the top of rectanglesType1:
h and padding come from the C-side entry and v from the P-side entry of
the cell; x = h * 2 * padding and y = v * 2 * padding, with every
arithmetic step wrapping as Go int arithmetic does (padding can be as
large as the maximum int64, which makes x wrap). -/
def type1Dims (h v padding : Nat) (sw sh : Int) : Int × Int :=
  let x : Int := wrap64 (wrap64 ((h : Int) * 2) * (padding : Int))
  let y : Int := wrap64 (wrap64 ((v : Int) * 2) * (padding : Int))
  if wrap64 (64 + x) ≤ sw ∧ wrap64 (64 + y) ≤ sh ∧
     wrap64 (wrap64 (320 + x) * wrap64 (320 + y)) ≤ wrap64 (sw * sh) then
    (wrap64 (sw - x), wrap64 (sh - y))
  else (sw, sh)

/-- Body of the rectangle loop of rectanglesType1 for index i. The s3
and d3 triples are the tnp slices of the source and destination
payloads; p is the composed permutation. The source deliberately stores
the destination point in the src field and vice versa; the model keeps
that swap. Coordinate arithmetic wraps as Go int arithmetic does, since
padding can be as large as the maximum int64. Indexing of the
source-side slices depends on data values and is checked; the
destination-side indices are within range by construction of the
loop. -/
def type1RectAt (s3 d3 : List Int × List Int × List Int) (p : List Int)
    (h padding : Nat) (sliceWidth sliceHeight lastSliceWidth lastSliceHeight : Int)
    (i : Nat) : Option ScrambleRect := do
  let dstColumn := i % h
  let dstRow := i / h
  let dstX0 : Int := wrap64 ((padding : Int) +
    wrap64 ((dstColumn : Int) * wrap64 (sliceWidth + wrap64 (2 * (padding : Int)))))
  let dstX := if d3.2.1.getD dstRow 0 < (dstColumn : Int)
    then wrap64 (dstX0 + wrap64 (lastSliceWidth - sliceWidth)) else dstX0
  let dstY0 : Int := wrap64 ((padding : Int) +
    wrap64 ((dstRow : Int) * wrap64 (sliceHeight + wrap64 (2 * (padding : Int)))))
  let dstY := if d3.1.getD dstColumn 0 < (dstRow : Int)
    then wrap64 (dstY0 + wrap64 (lastSliceHeight - sliceHeight)) else dstY0
  let pi := p.getD i 0
  let srcColumn := Int.tmod pi (h : Int)
  let srcRow := Int.tdiv pi (h : Int)
  let sn ← idxI s3.2.1 srcRow
  let srcX0 := wrap64 (srcColumn * sliceWidth)
  let srcX := if sn < srcColumn
    then wrap64 (srcX0 + wrap64 (lastSliceWidth - sliceWidth)) else srcX0
  let st ← idxI s3.1 srcColumn
  let srcY0 := wrap64 (srcRow * sliceHeight)
  let srcY := if st < srcRow
    then wrap64 (srcY0 + wrap64 (lastSliceHeight - sliceHeight)) else srcY0
  let pWidth := if d3.2.1.getD dstRow 0 = (dstColumn : Int) then lastSliceWidth else sliceWidth
  let pHeight := if d3.1.getD dstColumn 0 = (dstRow : Int) then lastSliceHeight else sliceHeight
  some { srcX := dstX, srcY := dstY, dstX := srcX, dstY := srcY,
         width := pWidth, height := pHeight }

/-- rectanglesType1: h and padding are taken from the C-side data of the
cell and v from the P-side data; dimensions, tnp slices of both
payloads, the composed permutation p[i] = srcP[dstP[i]] (a panic when
the index is out of range), the slice sizes (a division by zero when h
or v is zero panics), and the rectangles. -/
def rectanglesType1 (cData pData : Type1Data) (sw sh : Int) : RectResult :=
  let h := cData.h
  let v := pData.v
  let padding := cData.padding
  let width := (type1Dims h v padding sw sh).1
  let height := (type1Dims h v padding sw sh).2
  match tnp cData.src h v, tnp pData.dst h v with
  | some s3, some d3 =>
    match (List.range (h * v)).mapM (fun i => idxI s3.2.2 (d3.2.2.getD i 0)) with
    | none => RectResult.panicked
    | some p =>
      if h = 0 ∨ v = 0 then RectResult.panicked
      else
        let sliceWidth := Int.tdiv (wrap64 (wrap64 (width + (h : Int)) - 1)) (h : Int)
        let sliceHeight := Int.tdiv (wrap64 (wrap64 (height + (v : Int)) - 1)) (v : Int)
        let lastSliceWidth := wrap64 (width - wrap64 (((h : Int) - 1) * sliceWidth))
        let lastSliceHeight := wrap64 (height - wrap64 (((v : Int) - 1) * sliceHeight))
        match (List.range (h * v)).mapM
            (type1RectAt s3 d3 p h padding sliceWidth sliceHeight
              lastSliceWidth lastSliceHeight) with
        | none => RectResult.panicked
        | some rects =>
          RectResult.ok { rectangles := rects, srcWidth := sw, srcHeight := sh,
                          dstWidth := width, dstHeight := height }
  | _, _ => RectResult.panicked

theorem wrap64_eq_self (a : Int) (h1 : -(2 ^ 63) ≤ a) (h2 : a < 2 ^ 63) : wrap64 a = a := by
  unfold wrap64
  rw [Int.emod_eq_of_lt (by omega) (by omega)]
  omega

/-- On inputs where no step of the dimension computation leaves the
int64 range, type1Dims is the plain arithmetic condition of the spec:
the quantity bounds follow from the guard-product bound, the small h
and v, and the image-dimension bounds. -/
theorem type1Dims_eq_of_bounds (h v padding : Nat) (sw sh : Int)
    (hh8 : h ≤ 8) (hv8 : v ≤ 8)
    (hsw0 : 0 ≤ sw) (hsh0 : 0 ≤ sh) (hsw : sw < 2 ^ 63) (hsh : sh < 2 ^ 63)
    (harea : sw * sh < 2 ^ 63)
    (hguard : (320 + 2 * (h : Int) * (padding : Int)) *
        (320 + 2 * (v : Int) * (padding : Int)) < 2 ^ 63) :
    type1Dims h v padding sw sh =
      if 64 + 2 * (h : Int) * (padding : Int) ≤ sw ∧
         64 + 2 * (v : Int) * (padding : Int) ≤ sh ∧
         (320 + 2 * (h : Int) * (padding : Int)) *
           (320 + 2 * (v : Int) * (padding : Int)) ≤ sw * sh
      then (sw - 2 * (h : Int) * (padding : Int), sh - 2 * (v : Int) * (padding : Int))
      else (sw, sh) := by
  have hh : (h : Int) ≤ 8 := by exact_mod_cast hh8
  have hv : (v : Int) ≤ 8 := by exact_mod_cast hv8
  have hpad : (0 : Int) ≤ (padding : Int) := Int.ofNat_nonneg _
  have hx0 : (0 : Int) ≤ 2 * (h : Int) * (padding : Int) := by positivity
  have hy0 : (0 : Int) ≤ 2 * (v : Int) * (padding : Int) := by positivity
  have hxb : 320 + 2 * (h : Int) * (padding : Int) < 2 ^ 63 := by
    nlinarith [mul_nonneg (by linarith : (0 : Int) ≤ 320 + 2 * (h : Int) * (padding : Int))
      (by linarith : (0 : Int) ≤ 319 + 2 * (v : Int) * (padding : Int))]
  have hyb : 320 + 2 * (v : Int) * (padding : Int) < 2 ^ 63 := by
    nlinarith [mul_nonneg (by linarith : (0 : Int) ≤ 319 + 2 * (h : Int) * (padding : Int))
      (by linarith : (0 : Int) ≤ 320 + 2 * (v : Int) * (padding : Int))]
  have hr1 : (h : Int) * 2 * (padding : Int) = 2 * (h : Int) * (padding : Int) := by ring
  have hr2 : (v : Int) * 2 * (padding : Int) = 2 * (v : Int) * (padding : Int) := by ring
  have hprod0 : -(2 ^ 63) ≤ (320 + 2 * (h : Int) * (padding : Int)) *
      (320 + 2 * (v : Int) * (padding : Int)) := by
    have := mul_nonneg (by linarith : (0 : Int) ≤ 320 + 2 * (h : Int) * (padding : Int))
      (by linarith : (0 : Int) ≤ 320 + 2 * (v : Int) * (padding : Int))
    linarith
  have harea0 : -(2 ^ 63) ≤ sw * sh := by
    have := mul_nonneg hsw0 hsh0
    linarith
  unfold type1Dims
  dsimp only
  rw [wrap64_eq_self ((h : Int) * 2) (by omega) (by omega),
      wrap64_eq_self ((v : Int) * 2) (by omega) (by omega),
      hr1, hr2,
      wrap64_eq_self (2 * (h : Int) * (padding : Int)) (by linarith) (by linarith),
      wrap64_eq_self (2 * (v : Int) * (padding : Int)) (by linarith) (by linarith),
      wrap64_eq_self (64 + 2 * (h : Int) * (padding : Int)) (by linarith) (by linarith),
      wrap64_eq_self (64 + 2 * (v : Int) * (padding : Int)) (by linarith) (by linarith),
      wrap64_eq_self (320 + 2 * (h : Int) * (padding : Int)) (by linarith) (by linarith),
      wrap64_eq_self (320 + 2 * (v : Int) * (padding : Int)) (by linarith) (by linarith),
      wrap64_eq_self ((320 + 2 * (h : Int) * (padding : Int)) *
          (320 + 2 * (v : Int) * (padding : Int))) hprod0 hguard,
      wrap64_eq_self (sw * sh) harea0 harea,
      wrap64_eq_self (sw - 2 * (h : Int) * (padding : Int)) (by linarith) (by linarith),
      wrap64_eq_self (sh - 2 * (v : Int) * (padding : Int)) (by linarith) (by linarith)]

/-- C3 (amended): whenever rectanglesType1 produces a collection, its
destination dimensions come from type1Dims with h and padding taken from
the C-side cell data and v taken from the P-side cell data: on inputs
where no step of the dimension computation overflows int64 (h and v at
most 8 as initialisation guarantees, image dimensions and their product
below 2 ^ 63, and the guard product below 2 ^ 63), they are
(sw - 2 h padding, sh - 2 v padding) exactly when sw is at least
64 + 2 h padding, sh is at least 64 + 2 v padding and sw * sh is at
least (320 + 2 h padding) * (320 + 2 v padding), and (sw, sh)
otherwise; outside those bounds the computation wraps as Go int
arithmetic does, which is what type1Dims records. -/
theorem rectanglesType1_dims (cData pData : Type1Data) (sw sh : Int) (col : RectCollection)
    (hok : rectanglesType1 cData pData sw sh = RectResult.ok col)
    (hh8 : cData.h ≤ 8) (hv8 : pData.v ≤ 8)
    (hsw0 : 0 ≤ sw) (hsh0 : 0 ≤ sh) (hsw : sw < 2 ^ 63) (hsh : sh < 2 ^ 63)
    (harea : sw * sh < 2 ^ 63)
    (hguard : (320 + 2 * (cData.h : Int) * (cData.padding : Int)) *
        (320 + 2 * (pData.v : Int) * (cData.padding : Int)) < 2 ^ 63) :
    (col.dstWidth, col.dstHeight) =
      if 64 + 2 * (cData.h : Int) * (cData.padding : Int) ≤ sw ∧
         64 + 2 * (pData.v : Int) * (cData.padding : Int) ≤ sh ∧
         (320 + 2 * (cData.h : Int) * (cData.padding : Int)) *
           (320 + 2 * (pData.v : Int) * (cData.padding : Int)) ≤ sw * sh
      then (sw - 2 * (cData.h : Int) * (cData.padding : Int),
            sh - 2 * (pData.v : Int) * (cData.padding : Int))
      else (sw, sh) := by
  rw [← type1Dims_eq_of_bounds cData.h pData.v cData.padding sw sh hh8 hv8 hsw0 hsh0
    hsw hsh harea hguard]
  unfold rectanglesType1 at hok
  dsimp only at hok
  split at hok
  case _ s3 d3 =>
    split at hok
    · exact RectResult.noConfusion hok
    · split at hok
      · exact RectResult.noConfusion hok
      · split at hok
        · exact RectResult.noConfusion hok
        · have := RectResult.ok.inj hok
          rw [← this]
  · exact RectResult.noConfusion hok

/-- Parsed data of the first key pair =1-2+10-AAAAA / =1-2-10-AAAAA. -/
def c3d0 : Type1Data :=
  { h := 1, v := 2, padding := 10, src := List.replicate 5 65, dst := List.replicate 5 65 }

/-- Parsed data of the second key pair =2-1+10-AAAAA / =2-1-10-AAAAA. -/
def c3d1 : Type1Data :=
  { h := 2, v := 1, padding := 10, src := List.replicate 5 65, dst := List.replicate 5 65 }

def c3ctbl : List GoStr :=
  [[0x3D, 0x31, 0x2D, 0x32, 0x2B, 0x31, 0x30, 0x2D, 0x41, 0x41, 0x41, 0x41, 0x41],
   [0x3D, 0x32, 0x2D, 0x31, 0x2B, 0x31, 0x30, 0x2D, 0x41, 0x41, 0x41, 0x41, 0x41]]

def c3ptbl : List GoStr :=
  [[0x3D, 0x31, 0x2D, 0x32, 0x2D, 0x31, 0x30, 0x2D, 0x41, 0x41, 0x41, 0x41, 0x41],
   [0x3D, 0x32, 0x2D, 0x31, 0x2D, 0x31, 0x30, 0x2D, 0x41, 0x41, 0x41, 0x41, 0x41]]

/-- The collection produced for cell (0, 1) of the tables above on a
400 by 400 image. -/
def c3col : RectCollection :=
  match rectanglesType1 c3d0 c3d1 400 400 with
  | RectResult.ok col => col
  | _ => { rectangles := [], srcWidth := 0, srcHeight := 0, dstWidth := 0, dstHeight := 0 }

set_option maxRecDepth 40000 in
/-- C3 counterexample: a valid descrambler whose two pairs have
different h and v. For the cell with C-index 0 and P-index 1 the code
takes v from the P-side entry (v = 1), giving destination height
400 - 2 * 1 * 10 = 380, while the claim takes v from C[c_idx] (v = 2)
and demands 400 - 2 * 2 * 10 = 360. -/
theorem rectanglesType1_dims_counterexample :
    NewDescrambler c3ctbl c3ptbl =
      InitResult.ok (some KeyKind.t1) [ScrambleData.t1 c3d0, ScrambleData.t1 c3d1] ∧
    rectanglesType1 c3d0 c3d1 400 400 = RectResult.ok c3col ∧
    c3col.dstHeight = 380 ∧
    (400 : Int) - 2 * (c3d0.v : Int) * (c3d0.padding : Int) = 360 ∧
    (380 : Int) ≠ 360 :=
  ⟨by decide, by decide, by decide, by decide, by decide⟩

set_option maxRecDepth 40000 in
/-- Witness for the C3 theorem at the cell (0, 1) of the tables above. -/
theorem rectanglesType1_dims_witness :
    (c3col.dstWidth, c3col.dstHeight) = ((380 : Int), (380 : Int)) :=
  (rectanglesType1_dims c3d0 c3d1 400 400 c3col (by decide) (by decide) (by decide)
    (by decide) (by decide) (by decide) (by decide) (by decide) (by decide)).trans
    (by decide)

/-! ### BookWalker descrambler (bookwalker image.go) -/

def rectangleWidth : Int := 64
def rectangleHeight : Int := 64
def patternCount : Nat := 4

def jsa : Int := 61
def jsb : Int := 73
def jsc : Int := 4
def jsd : Int := 43
def jse : Int := 47
def jsf : Int := 53
def jsg : Int := 59
def jsh : Int := 67
def jsi : Int := 71
def jsj : Int := 29
def jsk : Int := 37
def jsl : Int := 31
def jsm : Int := 41

/-- Go remainder with a possibly zero divisor: a zero divisor panics at
run time, modelled as none. -/
def tmodC (a b : Int) : Option Int := if b = 0 then none else some (Int.tmod a b)

/-- getPattern: sum the code points of the file path; the pattern is the
sum modulo 4 plus one. -/
def getPattern (filePath : List Nat) : Nat :=
  filePath.foldl (fun acc c => acc + c) 0 % patternCount + 1

def calcPositionWithRest (coordX i remainderX rectangleSize : Int) : Int :=
  let res := coordX * rectangleSize
  if i ≤ res then res + remainderX else res

def calcXCoordinateXRest (index rectangleCountX pattern : Int) : Option Int :=
  tmodC (index + jsa * pattern) rectangleCountX

def calcYCoordinateXRest (coordX unk1 unk2 rectangleCountY pattern : Int) : Option Int :=
  let l : Bool := Int.tmod pattern 2 = 1
  let k : Bool := if coordX < unk1 then l else !l
  let modulo := if k then unk2 else rectangleCountY - unk2
  let extra := if k then 0 else unk2
  (tmodC (coordX + pattern * jsf + unk2 * jsg) modulo).map (fun m => m + extra)

def calcXCoordinateYRest (coordY unk1 unk2 rectangleCountX pattern : Int) : Option Int :=
  let l : Bool := Int.tmod pattern 2 = 1
  let k : Bool := if coordY < unk2 then l else !l
  let modulo := if k then rectangleCountX - unk1 else unk1
  let extra := if k then unk1 else 0
  (tmodC (coordY + pattern * jsh + unk1 + jsi) modulo).map (fun m => m + extra)

def calcYCoordinateYRest (index rectangleCountY pattern : Int) : Option Int :=
  tmodC (index + jsb * pattern) rectangleCountY

/-- One rectangle of the partial-height top strip, column s. -/
def bwStripYRect (rectsX rectsY i n remainderX remainderY pattern : Int) (s : Nat) :
    Option ScrambleRect := do
  let u ← calcXCoordinateXRest (s : Int) rectsX pattern
  let v ← calcYCoordinateXRest u i n rectsY pattern
  let q := calcPositionWithRest u i remainderX rectangleWidth
  let r := v * rectangleHeight
  let o := calcPositionWithRest (s : Int) i remainderX rectangleWidth
  let p := n * rectangleHeight
  some { srcX := q, srcY := r, dstX := o, dstY := p,
         width := rectangleWidth, height := remainderY }

/-- One rectangle of the partial-width side strip, row t. -/
def bwStripXRect (rectsX rectsY i n remainderX remainderY pattern : Int) (t : Nat) :
    Option ScrambleRect := do
  let v ← calcYCoordinateYRest (t : Int) rectsY pattern
  let u ← calcXCoordinateYRest v i n rectsX pattern
  let q := u * rectangleWidth
  let r := calcPositionWithRest v n remainderY rectangleHeight
  let o := i * rectangleWidth
  let p := calcPositionWithRest (t : Int) n remainderY rectangleHeight
  some { srcX := q, srcY := r, dstX := o, dstY := p,
         width := remainderX, height := rectangleHeight }

/-- One rectangle of the full-tile bulk, destination column s and row t. -/
def bwBulkRect (rectsX rectsY i n remainderX remainderY pattern : Int) (s t : Nat) :
    Option ScrambleRect := do
  let u ← tmodC ((s : Int) + pattern * jsj + jsl * (t : Int)) rectsX
  let v ← tmodC ((t : Int) + pattern * jsk + jsm * u) rectsY
  let cx ← calcXCoordinateYRest v i n rectsX pattern
  let w := if cx ≤ u then remainderX else 0
  let cy ← calcYCoordinateXRest u i n rectsY pattern
  let x := if cy ≤ v then remainderY else 0
  let q := u * rectangleWidth + w
  let r := v * rectangleHeight + x
  let o := (s : Int) * rectangleWidth + (if i ≤ (s : Int) then remainderX else 0)
  let p := (t : Int) * rectangleHeight + (if n ≤ (t : Int) then remainderY else 0)
  some { srcX := q, srcY := r, dstX := o, dstY := p,
         width := rectangleWidth, height := rectangleHeight }

/-- generateRectangles from the BookWalker plugin: anchor indices i and
n, the optional corner rectangle, the two partial strips and the bulk,
in source order. A remainder taken with a zero rectangle count is the
Go division-by-zero panic, modelled as none. The model notes that after
the first remainder by rectsX (respectively rectsY) succeeds, the later
plain remainders by the same nonzero count are safe. -/
def generateRectangles (srcWidth srcHeight pattern : Int) : Option (List ScrambleRect) := do
  let rectsX := Int.tdiv srcWidth rectangleWidth
  let rectsY := Int.tdiv srcHeight rectangleHeight
  let remainderX := Int.tmod srcWidth rectangleWidth
  let remainderY := Int.tmod srcHeight rectangleHeight
  let i0 ← tmodC (jsd * pattern) rectsX
  let i1 := rectsX - i0
  let i2 := if Int.tmod i1 rectsX = 0 then Int.tmod (rectsX - jsc) rectsX else i1
  let i := if i2 = 0 then rectsX - 1 else i2
  let n0 ← tmodC (jse * pattern) rectsY
  let n1 := rectsY - n0
  let n2 := if Int.tmod n1 rectsY = 0 then Int.tmod (rectsY - jsc) rectsY else n1
  let n := if n2 = 0 then rectsY - 1 else n2
  let corner : List ScrambleRect :=
    if 0 < remainderX ∧ 0 < remainderY then
      [{ srcX := i * rectangleWidth, srcY := n * rectangleHeight,
         dstX := i * rectangleWidth, dstY := n * rectangleHeight,
         width := remainderX, height := remainderY }]
    else []
  let stripY ←
    if 0 < remainderY then
      (List.range rectsX.toNat).mapM
        (bwStripYRect rectsX rectsY i n remainderX remainderY pattern)
    else pure []
  let stripX ←
    if 0 < remainderX then
      (List.range rectsY.toNat).mapM
        (bwStripXRect rectsX rectsY i n remainderX remainderY pattern)
    else pure []
  let bulk ← (List.range rectsX.toNat).mapM (fun s =>
    (List.range rectsY.toNat).mapM
      (bwBulkRect rectsX rectsY i n remainderX remainderY pattern s))
  pure (corner ++ stripY ++ stripX ++ bulk.flatten)

/-- Cached rectangle collection of the BookWalker descrambler. -/
structure BWCollection where
  rectangles : List ScrambleRect
  srcWidth : Int
  srcHeight : Int
  dstWidth : Int
  dstHeight : Int
  deriving DecidableEq

/-- Descramble of the BookWalker descrambler, on the per-pattern cache
state (a four-entry list indexed by pattern - 1). The input image is
given by its decoded dimensions. The returned pair of dimensions is the
size of the allocated output image: image.Rect normalises a negative
corner by swapping, so the allocated size is the absolute value of the
stored destination dimensions. none is a panic inside
generateRectangles. -/
def bwDescramble (st : List (Option BWCollection)) (filename : List Nat)
    (sw sh dummyWidth dummyHeight : Int) :
    Option (List (Option BWCollection) × Int × Int) :=
  let pattern := getPattern filename
  let fresh : Option BWCollection :=
    (generateRectangles sw sh (pattern : Int)).map (fun rs =>
      { rectangles := rs, srcWidth := sw, srcHeight := sh,
        dstWidth := sw - dummyWidth, dstHeight := sh - dummyHeight })
  let col : Option BWCollection :=
    match st.getD (pattern - 1) none with
    | some c => if sw = c.srcWidth ∧ sh = c.srcHeight then some c else fresh
    | none => fresh
  col.map (fun c => (st.set (pattern - 1) (some c), |c.dstWidth|, |c.dstHeight|))

/-- Rectangles generated for a 640 by 896 image with pattern 4. -/
def c4rects : List ScrambleRect := (generateRectangles 640 896 4).getD []

/-- The identity tile positions of a 640 by 896 image: ten columns and
fourteen rows of 64 by 64 tiles, column-major as the bulk loop emits
them. -/
def c4tiles : List (Int × Int) :=
  ((List.range 10).map (fun s => (List.range 14).map
    (fun t => ((64 * (s : Int)), (64 * (t : Int)))))).flatten

theorem foldl_add_eq_sum (l : List Nat) : ∀ a, l.foldl (fun acc c => acc + c) a = a + l.sum := by
  induction l with
  | nil => intro a; simp
  | cons c cs ih => intro a; simp [List.foldl_cons, ih, List.sum_cons]; omega

set_option maxRecDepth 400000 in
/-- C4: the BookWalker pattern is the code-point sum modulo 4 plus one,
hence in the range one to four, and 4 for every filename whose sum is 3
modulo 4; for a 640 by 896 source image with pattern 4 the generated
list holds exactly 140 rectangles, all of size 64 by 64, whose
destination positions are a permutation of the identity tile positions
covering the image. -/
theorem bookwalker_pattern_rects :
    (∀ f : List Nat, getPattern f = f.sum % 4 + 1 ∧ 1 ≤ getPattern f ∧ getPattern f ≤ 4) ∧
    (∀ f : List Nat, f.sum % 4 = 3 → getPattern f = 4) ∧
    generateRectangles 640 896 4 = some c4rects ∧
    c4rects.length = 140 ∧
    (∀ r ∈ c4rects, r.width = 64 ∧ r.height = 64) ∧
    (c4rects.map (fun r => (r.dstX, r.dstY))).Perm c4tiles := by
  have hpat : ∀ f : List Nat, getPattern f = f.sum % 4 + 1 := by
    intro f
    simp only [getPattern, patternCount, foldl_add_eq_sum f 0, Nat.zero_add]
  refine ⟨?_, ?_, ?_, ?_, ?_, ?_⟩
  · intro f
    refine ⟨hpat f, ?_, ?_⟩ <;> rw [hpat f] <;> omega
  · intro f hf
    rw [hpat f, hf]
  · decide
  · decide
  · decide
  · have hEq : c4rects.map (fun r => (r.dstX, r.dstY)) = c4tiles := by decide
    exact hEq ▸ List.Perm.refl _

/-- Witness for the pattern part of C4: a filename summing to 3 gives
pattern 4. -/
theorem bookwalker_pattern_rects_witness : getPattern [3] = 4 :=
  bookwalker_pattern_rects.2.1 [3] (by decide)

theorem tdiv64_eq_zero (w : Int) (h0 : 0 ≤ w) (hlt : w < 64) : Int.tdiv w 64 = 0 := by
  rw [Int.tdiv_eq_ediv h0 (by norm_num)]
  exact Int.ediv_eq_zero_of_lt h0 hlt

theorem tdiv64_ne_zero (w : Int) (h64 : 64 ≤ w) : Int.tdiv w 64 ≠ 0 := by
  rw [Int.tdiv_eq_ediv (by omega) (by norm_num)]
  have : (1 : Int) ≤ w / 64 := by
    rw [Int.le_ediv_iff_mul_le (by norm_num)]
    omega
  omega

theorem allNoneGetD (i : Nat) :
    (([none, none, none, none] : List (Option BWCollection))[i]?.getD none) = none := by
  rcases i with _ | _ | _ | _ | i <;> rfl

/-- C9: on any decoded image with width below 64 or height below 64, the
BookWalker rectangle generation takes a remainder by a zero rectangle
count (rectsX or rectsY is zero) and panics, for every pattern; in
particular Descramble on a fresh descrambler panics on such images
instead of returning an error. -/
theorem bw_small_image_panics :
    (∀ w h p : Int, 0 ≤ w → 0 ≤ h → w < 64 ∨ h < 64 → generateRectangles w h p = none) ∧
    (∀ (f : List Nat) (w h dw dh : Int), 0 ≤ w → 0 ≤ h → w < 64 ∨ h < 64 →
      bwDescramble [none, none, none, none] f w h dw dh = none) := by
  have hgen : ∀ w h p : Int, 0 ≤ w → 0 ≤ h → w < 64 ∨ h < 64 →
      generateRectangles w h p = none := by
    intro w h p hw hh hsmall
    by_cases hx0 : Int.tdiv w 64 = 0
    · unfold generateRectangles
      simp [rectangleWidth, hx0, tmodC]
    · have h64 : 64 ≤ w := by
        by_contra hc
        exact hx0 (tdiv64_eq_zero w hw (by omega))
      have hy : Int.tdiv h 64 = 0 := by
        rcases hsmall with hs | hs
        · omega
        · exact tdiv64_eq_zero h hh hs
      unfold generateRectangles
      simp [rectangleWidth, rectangleHeight, hx0, hy, tmodC]
  refine ⟨hgen, ?_⟩
  intro f w h dw dh hw hh hsmall
  have hg := hgen w h ((getPattern f : Nat) : Int) hw hh hsmall
  unfold bwDescramble
  simp [allNoneGetD, hg]

/-- Witness for C9: a 63 by 100 image with pattern 1 panics. -/
theorem bw_small_image_panics_witness : generateRectangles 63 100 1 = none :=
  bw_small_image_panics.1 63 100 1 (by decide) (by decide) (Or.inl (by decide))

/-- C5 (amended): whenever a Descramble call computes a fresh rectangle
collection for its pattern (no cached collection, or cached source
dimensions different from the decoded image), and the dummy sizes do not
exceed the image, the returned image dimensions are exactly
(sw - dummy_w, sh - dummy_h); a cache hit instead returns the
destination dimensions stored when the cached collection was computed,
which reflect the dummy sizes of that earlier call. -/
theorem bwDescramble_fresh_dims (st : List (Option BWCollection)) (f : List Nat)
    (sw sh dw dh : Int)
    (hmiss : ∀ c, st.getD (getPattern f - 1) none = some c →
      sw ≠ c.srcWidth ∨ sh ≠ c.srcHeight)
    (rs : List ScrambleRect)
    (hgen : generateRectangles sw sh ((getPattern f : Nat) : Int) = some rs)
    (hw : dw ≤ sw) (hh : dh ≤ sh) :
    bwDescramble st f sw sh dw dh =
      some (st.set (getPattern f - 1)
        (some { rectangles := rs, srcWidth := sw, srcHeight := sh,
                dstWidth := sw - dw, dstHeight := sh - dh }),
        sw - dw, sh - dh) := by
  have habs1 : |sw - dw| = sw - dw := abs_of_nonneg (by omega)
  have habs2 : |sh - dh| = sh - dh := abs_of_nonneg (by omega)
  unfold bwDescramble
  cases hcol : st.getD (getPattern f - 1) none with
  | none =>
    simp only [hcol, hgen, Option.map_some]
    simp [habs1, habs2]
  | some c =>
    have hne : ¬(sw = c.srcWidth ∧ sh = c.srcHeight) := by
      intro ⟨h1, h2⟩
      rcases hmiss c hcol with h | h
      · exact h h1
      · exact h h2
    simp only [hcol, hgen, hne, if_false, Option.map_some]
    simp [hne, habs1, habs2]

def c5state0 : List (Option BWCollection) := [none, none, none, none]

/-- Rectangles of the 128 by 128 image under pattern 2, the pattern of
the one-character filename with code point 97. -/
def c5rs : List ScrambleRect := (generateRectangles 128 128 2).getD []

/-- The cache state after descrambling a 128 by 128 image with dummy
sizes zero. -/
def c5state1 : List (Option BWCollection) :=
  match bwDescramble c5state0 [97] 128 128 0 0 with
  | some (st, _, _) => st
  | none => []

/-- C5 counterexample: after a first successful call on a 128 by 128
image with dummy sizes zero, a second call with the same filename and
image but dummy sizes 16 hits the cache (keyed only on pattern and
source dimensions) and returns a 128 by 128 image, not the
(128 - 16, 128 - 16) image the claim requires. -/
theorem bwDescramble_counterexample :
    bwDescramble c5state0 [97] 128 128 0 0 = some (c5state1, 128, 128) ∧
    bwDescramble c5state1 [97] 128 128 16 16 = some (c5state1, 128, 128) ∧
    ((128 : Int), (128 : Int)) ≠ ((128 : Int) - 16, (128 : Int) - 16) :=
  ⟨by decide, by decide, by decide⟩

/-- Witness for the C5 theorem: a fresh call on an empty cache with
dummy sizes 16 returns a 112 by 112 image. -/
theorem bwDescramble_fresh_dims_witness :
    bwDescramble c5state0 [97] 128 128 16 16 =
      some (c5state0.set (getPattern [97] - 1)
        (some { rectangles := c5rs, srcWidth := 128, srcHeight := 128,
                dstWidth := 128 - 16, dstHeight := 128 - 16 }),
        128 - 16, 128 - 16) :=
  bwDescramble_fresh_dims c5state0 [97] 128 128 16 16
    (fun _ h => Option.noConfusion h) c5rs (by decide) (by decide) (by decide)

/-! ### Download coordinator (src/downloadmanager.go) -/

/-- One work thunk as the coordinator sees it: the artifact paths it
saves (path names are numbers in the model) and whether it reports an
error. -/
structure WorkThunk where
  artifacts : List Nat
  fails : Bool
  deriving DecidableEq

/-- Errors of the coordinator exit paths. -/
inductive DLErr where
  | nilGenerator
  | interrupted
  | worker (n : Nat)
  | noDownloaders
  | zip
  deriving DecidableEq

/-- One run of Download as seen from outside: whether the generator was
nil, the thunks it yields, whether an interrupt arrives during the run,
the zip flag and whether zipping fails. -/
structure RunConfig where
  genNil : Bool
  thunks : List WorkThunk
  interrupted : Bool
  zipit : Bool
  zipFails : Bool
  deriving DecidableEq

/-- Observable outcome of Download: the Cleanup calls made on the exit
path (in order, with their argument), whether the function exits by
re-panicking, the returned artifact paths and the returned error. -/
structure RunResult where
  cleanupArgs : List (Option DLErr)
  panicOut : Bool
  paths : List Nat
  retErr : Option DLErr
  deriving DecidableEq

/-- Index of the first failing thunk, the first error the error channel
delivers in the sequential schedule. -/
def firstFailure (l : List WorkThunk) : Option Nat := l.findIdx? (fun t => t.fails)

/-- Sequential model of DownloadManager.Download, fixing the schedule in
which thunks run one at a time in generator order and the interrupt (if
any) is observed before completion. Exit paths follow the source: a nil
generator panics, the deferred recover calls Cleanup with the panic
error and re-panics; an interrupt calls Cleanup(ErrInterrupted) and
returns nil paths with that error; a worker error calls Cleanup(err)
and returns nil paths with it; zero thunks is the got-no-downloaders
error; a zip failure calls Cleanup(err) and returns the accumulated
paths together with the error; otherwise Cleanup(nil) and the paths. -/
def Download (cfg : RunConfig) : RunResult :=
  if cfg.genNil then
    { cleanupArgs := [some DLErr.nilGenerator], panicOut := true, paths := [], retErr := none }
  else if cfg.interrupted then
    { cleanupArgs := [some DLErr.interrupted], panicOut := false, paths := [],
      retErr := some DLErr.interrupted }
  else
    match firstFailure cfg.thunks with
    | some n =>
      { cleanupArgs := [some (DLErr.worker n)], panicOut := false, paths := [],
        retErr := some (DLErr.worker n) }
    | none =>
      if cfg.thunks.isEmpty then
        { cleanupArgs := [some DLErr.noDownloaders], panicOut := false, paths := [],
          retErr := some DLErr.noDownloaders }
      else
        let ps := (cfg.thunks.map WorkThunk.artifacts).flatten
        if cfg.zipit && cfg.zipFails then
          { cleanupArgs := [some DLErr.zip], panicOut := false, paths := ps,
            retErr := some DLErr.zip }
        else
          { cleanupArgs := [none], panicOut := false, paths := ps, retErr := none }

/-- C6 (amended): on every run, Cleanup is called exactly once on the
exit path, and its argument is nil exactly when the generator was
non-nil, no interrupt arrived, no thunk failed, at least one thunk was
produced, and zipping (when enabled) succeeded; in particular the
argument can be nil with zero artifacts saved, whenever every thunk
succeeds while saving nothing. -/
theorem Download_cleanup_spec (cfg : RunConfig) :
    (Download cfg).cleanupArgs.length = 1 ∧
    ((Download cfg).cleanupArgs = [none] ↔
      cfg.genNil = false ∧ cfg.interrupted = false ∧ firstFailure cfg.thunks = none ∧
      cfg.thunks ≠ [] ∧ (cfg.zipit && cfg.zipFails) = false) := by
  unfold Download
  by_cases hg : cfg.genNil <;> simp [hg]
  by_cases hi : cfg.interrupted <;> simp [hi]
  cases hf : firstFailure cfg.thunks with
  | some n => simp
  | none =>
    by_cases he : cfg.thunks = []
    · simp [he]
    · by_cases hz : cfg.zipit = true ∧ cfg.zipFails = true
      · simp [he, hz, hz.1, hz.2]
      · have hzf : (cfg.zipit && cfg.zipFails) = false := by
          rcases Bool.eq_false_or_eq_true cfg.zipit with h | h <;>
            rcases Bool.eq_false_or_eq_true cfg.zipFails with h2 | h2 <;>
              simp_all
        simp [he, hz, hzf]
        intro h
        simpa [h] using hzf

/-- C6 counterexample: one thunk that succeeds but saves nothing. The
run ends with Cleanup(nil) although it produced no artifact, so the
claimed equivalence (nil iff at least one artifact and no error) fails. -/
theorem Download_cleanup_counterexample :
    Download { genNil := false, thunks := [{ artifacts := [], fails := false }],
               interrupted := false, zipit := false, zipFails := false } =
      { cleanupArgs := [none], panicOut := false, paths := [], retErr := none } ∧
    ([] : List Nat).length = 0 :=
  ⟨by decide, rfl⟩

/-- C7 (amended): when Download returns a non-nil error, the returned
path list is empty except on the packaging-error path, where the
artifacts accumulated before zipping are returned together with the
error. -/
theorem Download_err_paths (cfg : RunConfig) (h : (Download cfg).retErr ≠ none) :
    ((Download cfg).retErr = some DLErr.zip ∧
      (Download cfg).paths = (cfg.thunks.map WorkThunk.artifacts).flatten) ∨
    (Download cfg).paths = [] := by
  revert h
  unfold Download
  by_cases hg : cfg.genNil <;> simp [hg]
  by_cases hi : cfg.interrupted <;> simp [hi]
  cases hf : firstFailure cfg.thunks with
  | some n => simp
  | none =>
    by_cases he : cfg.thunks = []
    · simp [he]
    · by_cases hz : cfg.zipit = true ∧ cfg.zipFails = true <;> simp [he, hz]

/-- C7 counterexample: a run that saves one file and then fails to zip
returns the error together with the non-empty artifact list, while the
claim demands an empty list on every failed run. -/
theorem Download_err_paths_counterexample :
    (Download { genNil := false, thunks := [{ artifacts := [5], fails := false }],
                interrupted := false, zipit := true, zipFails := true }).retErr =
      some DLErr.zip ∧
    (Download { genNil := false, thunks := [{ artifacts := [5], fails := false }],
                interrupted := false, zipit := true, zipFails := true }).paths = [5] ∧
    ([5] : List Nat) ≠ [] :=
  ⟨by decide, by decide, by decide⟩

/-- Witness for the C7 theorem at an interrupted run. -/
theorem Download_err_paths_witness :
    ((Download { genNil := false, thunks := [], interrupted := true, zipit := false,
                 zipFails := false }).retErr = some DLErr.zip ∧
      (Download { genNil := false, thunks := [], interrupted := true, zipit := false,
                  zipFails := false }).paths =
        (([] : List WorkThunk).map WorkThunk.artifacts).flatten) ∨
    (Download { genNil := false, thunks := [], interrupted := true, zipit := false,
                zipFails := false }).paths = [] :=
  Download_err_paths
    { genNil := false, thunks := [], interrupted := true, zipit := false, zipFails := false }
    (by decide)

/-! ### C8: worker bound of the spawner semaphore -/

/-- State of the worker pool: slots of the workerLimiter channel
currently held and workers currently running a thunk. -/
structure PoolState where
  acquired : Nat
  running : Nat
  deriving DecidableEq

/-- Steps of the spawner and its workers, as the source performs them:
the spawner sends into the workerLimiter channel of capacity W before
launching a worker (spawn, enabled only while fewer than W slots are
held); a worker that finishes its thunk without error receives from the
channel at the very end, freeing the slot with the worker (finishOk);
a worker that reports an error exits without freeing its slot
(finishErr). -/
inductive PoolStep (W : Nat) : PoolState → PoolState → Prop where
  | spawn (s : PoolState) (h : s.acquired < W) :
      PoolStep W s { acquired := s.acquired + 1, running := s.running + 1 }
  | finishOk (s : PoolState) (hr : 0 < s.running) (ha : 0 < s.acquired) :
      PoolStep W s { acquired := s.acquired - 1, running := s.running - 1 }
  | finishErr (s : PoolState) (hr : 0 < s.running) :
      PoolStep W s { acquired := s.acquired, running := s.running - 1 }

/-- C8: in every run with worker cap W (every state reachable from the
idle state by spawner and worker steps), at most W thunks are in
progress at any point: each running worker holds a slot of the
capacity-W semaphore until it finishes. -/
theorem pool_worker_bound (W : Nat) (s : PoolState)
    (h : Relation.ReflTransGen (PoolStep W) { acquired := 0, running := 0 } s) :
    s.running ≤ W := by
  have hinv : s.running ≤ s.acquired ∧ s.acquired ≤ W := by
    induction h with
    | refl => exact ⟨le_refl 0, Nat.zero_le W⟩
    | tail hr hstep ih =>
      obtain ⟨ih1, ih2⟩ := ih
      cases hstep with
      | spawn ht => exact ⟨by dsimp only; omega, by dsimp only; omega⟩
      | finishOk htr hta => exact ⟨by dsimp only; omega, by dsimp only; omega⟩
      | finishErr htr => exact ⟨by dsimp only; omega, by dsimp only; omega⟩
  omega

/-- Witness for C8: with cap 2, after one spawn a single worker runs. -/
theorem pool_worker_bound_witness : (1 : Nat) ≤ 2 :=
  pool_worker_bound 2 { acquired := 1, running := 1 }
    (Relation.ReflTransGen.single
      (PoolStep.spawn { acquired := 0, running := 0 } (by decide)))

/-! ### BinB Descramble indexing (src/plugins/binb/scrambling.go) -/

/-- cpIndex: characters at even byte offsets accumulate into the p sum
and odd ones into the c sum, both reduced modulo 8 at the end. The
offset advances by the UTF-8 width of each rune, as in the Go range
loop. -/
def cpIndexAux : List Nat → Nat → Nat → Nat → Nat × Nat
  | [], _, c, p => (c % 8, p % 8)
  | r :: rs, i, c, p =>
    if i % 2 = 0 then cpIndexAux rs (i + runeLen r) c (p + r)
    else cpIndexAux rs (i + runeLen r) (c + r) p

def cpIndex (filename : List Nat) : Nat × Nat := cpIndexAux filename 0 0 0

/-- rectanglesType2: dimension check (an error return, not a panic),
grid constants, pieces, and the two identity remainder strips. Indexing
pData.pieces[i] for i below the length of cData.pieces panics when the
P-side piece list is shorter. -/
def rectanglesType2 (cData pData : Type2Data) (sw sh : Int) : RectResult :=
  if ¬(64 ≤ sw ∧ 64 ≤ sh ∧ 320 * 320 ≤ sw * sh) then RectResult.err
  else
    let e := sw - Int.tmod sw 8
    let f := Int.tdiv (e - 1) 7 - Int.tmod (Int.tdiv (e - 1) 7) 8
    let g := e - f * 7
    let h := sh - Int.tmod sh 8
    let j := Int.tdiv (h - 1) 7 - Int.tmod (Int.tdiv (h - 1) 7) 8
    let k := h - j * 7
    if pData.pieces.length < cData.pieces.length then RectResult.panicked
    else
      let main : List ScrambleRect := (List.range cData.pieces.length).map (fun idx =>
        let cP := cData.pieces.getD idx { posX := 0, posY := 0, width := 0, height := 0 }
        let pP := pData.pieces.getD idx { posX := 0, posY := 0, width := 0, height := 0 }
        { srcX := Int.tdiv cP.posX 2 * f + Int.tmod cP.posX 2 * g
          srcY := Int.tdiv cP.posY 2 * j + Int.tmod cP.posY 2 * k
          dstX := Int.tdiv pP.posX 2 * f + Int.tmod pP.posX 2 * g
          dstY := Int.tdiv pP.posY 2 * j + Int.tmod pP.posY 2 * k
          width := Int.tdiv cP.width 2 * f + Int.tmod cP.width 2 * g
          height := Int.tdiv cP.height 2 * j + Int.tmod cP.height 2 * k })
      let e2 := f * ((cData.ndx : Int) - 1) + g
      let h2 := j * ((cData.ndy : Int) - 1) + k
      let withRight := if e2 < sw then
        main ++ [{ srcX := e2, srcY := 0, dstX := e2, dstY := 0,
                   width := sw - e2, height := h2 }] else main
      let withBottom := if h2 < sh then
        withRight ++ [{ srcX := 0, srcY := h2, dstX := 0, dstY := h2,
                        width := sw, height := sh - h2 }] else withRight
      RectResult.ok { rectangles := withBottom, srcWidth := sw, srcHeight := sh,
                      dstWidth := sw, dstHeight := sh }

/-- Result of one Descramble call on the BinB descrambler: the updated
cache and the collection used for the blit, an error return, or a
panic. -/
inductive DescrambleResult where
  | ok (cache : List (List (Option RectCollection))) (col : RectCollection)
  | err
  | panicked
  deriving DecidableEq

/-- The recomputation arm of Descramble: index the data table at both
cell indices (Go panics when an index is out of range or when the type
assertion on the entry fails) and derive the rectangles for the key
type; an unset key type is an error return. -/
def binbRecompute (keyType : Option KeyKind) (data : List ScrambleData)
    (cache : List (List (Option RectCollection))) (c p : Nat) (sw sh : Int) :
    DescrambleResult :=
  match keyType with
  | none => DescrambleResult.err
  | some KeyKind.t1 =>
    if c < data.length ∧ p < data.length then
      match data.getD c (ScrambleData.t1 { h := 0, v := 0, padding := 0, src := [], dst := [] }),
            data.getD p (ScrambleData.t1 { h := 0, v := 0, padding := 0, src := [], dst := [] }) with
      | ScrambleData.t1 cd, ScrambleData.t1 pd =>
        match rectanglesType1 cd pd sw sh with
        | RectResult.ok col =>
          DescrambleResult.ok (cache.set c ((cache.getD c []).set p (some col))) col
        | RectResult.err => DescrambleResult.err
        | RectResult.panicked => DescrambleResult.panicked
      | _, _ => DescrambleResult.panicked
    else DescrambleResult.panicked
  | some KeyKind.t2 =>
    if c < data.length ∧ p < data.length then
      match data.getD c (ScrambleData.t1 { h := 0, v := 0, padding := 0, src := [], dst := [] }),
            data.getD p (ScrambleData.t1 { h := 0, v := 0, padding := 0, src := [], dst := [] }) with
      | ScrambleData.t2pair cd _, ScrambleData.t2pair _ pd =>
        match rectanglesType2 cd pd sw sh with
        | RectResult.ok col =>
          DescrambleResult.ok (cache.set c ((cache.getD c []).set p (some col))) col
        | RectResult.err => DescrambleResult.err
        | RectResult.panicked => DescrambleResult.panicked
      | _, _ => DescrambleResult.panicked
    else DescrambleResult.panicked

/-- Descrambler.Descramble on a decoded image of the given dimensions:
derive the cell indices from the filename, access the cached collection
at rectangleCollections[c][p] (the nc by np table allocated by
NewDescrambler; an out-of-range index is a Go panic), reuse it when the
source dimensions match and recompute it otherwise. -/
def binbDescramble (nc np : Nat) (keyType : Option KeyKind) (data : List ScrambleData)
    (cache : List (List (Option RectCollection))) (filename : List Nat) (sw sh : Int) :
    DescrambleResult :=
  let cp := cpIndex filename
  let c := cp.1
  let p := cp.2
  if nc ≤ c ∨ np ≤ p then DescrambleResult.panicked
  else
    match (cache.getD c []).getD p none with
    | some col =>
      if sw = col.srcWidth ∧ sh = col.srcHeight then DescrambleResult.ok cache col
      else binbRecompute keyType data cache c p sw sh
    | none => binbRecompute keyType data cache c p sw sh

theorem cpIndexAux_lt :
    ∀ (l : List Nat) (i c p : Nat), (cpIndexAux l i c p).1 < 8 ∧ (cpIndexAux l i c p).2 < 8 := by
  intro l
  induction l with
  | nil =>
    intro i c p
    exact ⟨Nat.mod_lt _ (by norm_num), Nat.mod_lt _ (by norm_num)⟩
  | cons r rs ih =>
    intro i c p
    unfold cpIndexAux
    split
    · exact ih _ _ _
    · exact ih _ _ _

/-- C10: the cell indices derived from any filename lie in [0, 8), and
for every descrambler built by NewDescrambler from tables with fewer
than 8 entries there is a filename, for instance the one-byte name with
code point 0x2F whose indices are (0, 7), on which Descramble panics
with an out-of-range index into the rectangle-collection table instead
of returning an error. -/
theorem binb_index_panic :
    (∀ f : List Nat, (cpIndex f).1 < 8 ∧ (cpIndex f).2 < 8) ∧
    (∀ (ctbl ptbl : List GoStr) (kt : Option KeyKind) (data : List ScrambleData)
       (cache : List (List (Option RectCollection))) (sw sh : Int),
      NewDescrambler ctbl ptbl = InitResult.ok kt data →
      ctbl.length < 8 → ptbl.length < 8 →
      binbDescramble ctbl.length ptbl.length kt data cache [0x2F] sw sh =
        DescrambleResult.panicked) := by
  refine ⟨fun f => cpIndexAux_lt f 0 0 0, ?_⟩
  intro ctbl ptbl kt data cache sw sh hok hc8 hp8
  have hcp : cpIndex [0x2F] = (0, 7) := by decide
  unfold binbDescramble
  simp only [hcp]
  rw [if_pos (Or.inr (by omega))]

/-- Witness tables for C10: one valid type-2 pair, hence a descrambler
with a single table entry. -/
def c10tbl : List GoStr := [[0x31, 0x2D, 0x31, 0x2D, 0x41, 0x62]]

def c10data : List ScrambleData :=
  [ScrambleData.t2pair
    { ndx := 1, ndy := 1, pieces := [{ posX := 1, posY := 2, width := 1, height := 1 }] }
    { ndx := 1, ndy := 1, pieces := [{ posX := 1, posY := 2, width := 1, height := 1 }] }]

/-- Witness for C10: a valid single-entry descrambler panics on the
filename with code point 0x2F. -/
theorem binb_index_panic_witness :
    binbDescramble c10tbl.length c10tbl.length (some KeyKind.t2) c10data [] [0x2F] 100 100 =
      DescrambleResult.panicked :=
  binb_index_panic.2 c10tbl c10tbl (some KeyKind.t2) c10data [] 100 100
    (by decide) (by decide) (by decide)
